import Mathlib

/-!
Shallow embedding of the MycilaTaskManager repository (C++), for checking its
natural-language specification.  The repository ships two revisions of the
same design: the current one (src/src/MycilaBinStatistics.h and the inline
bodies of src/src/MycilaTaskManager.h) and a superseded one
(src/src/MycilaTaskManager.cpp, whose class declaration header is not in the
repository).  Machine integers are modelled as Nat with explicit `% 2 ^ w`
where C++ overflow/wraparound matters.  The monotonic clock (`millis()`) is
passed explicitly; calls that C++ makes at distinct instants within one
operation receive separate parameters where that matters, and a scheduling
pass models the clock as stationary while the tasks of the pass execute.
The work function `_fn`, `yield()`, logging and the done-callback act outside
the scheduler state and are modelled as no-ops on it; the enabled predicate
(a nullable `std::function<bool()>`) is modelled by its value,
`Option Bool`. -/

namespace Mycila

/-- UINT32_MAX. -/
def U32MAX : Nat := 4294967295

/-- UINT16_MAX. -/
def U16MAX : Nat := 65535

/-- Unsigned 32-bit subtraction `a - b` as C++ computes it on uint32_t
operands (wraparound modulo 2^32). -/
def sub32 (a b : Nat) : Nat := (a + 2 ^ 32 - b % 2 ^ 32) % 2 ^ 32

/-- The histogram of src/src/MycilaBinStatistics.h (current revision).
`bins` has length `binCount`; every bin counter is a uint16, `count` a
uint32. -/
structure BinStatistics where
  binCount : Nat
  unitDivider : Nat
  bins : List Nat
  count : Nat
deriving DecidableEq, Repr

/-- `BinStatistics::clear()`: zero the total count and all `binCount` bins. -/
def BinStatistics.clear (h : BinStatistics) : BinStatistics :=
  { h with count := 0, bins := List.replicate h.binCount 0 }

/-- The constructor `BinStatistics(binCount, unitDivider)`: allocate the bin
array and clear it. -/
def BinStatistics.create (binCount unitDivider : Nat) : BinStatistics :=
  { binCount := binCount, unitDivider := unitDivider,
    bins := List.replicate binCount 0, count := 0 }

/-- The bin-classification loop of `BinStatistics::record`
(`while (elapsed >>= 1 && bin < _binCount - 1) bin++;`), one fuel unit per
iteration of the C++ `while`.  By C++ precedence the controlling expression
is `elapsed >>= (1 && (bin < _binCount - 1))`: the shift amount is 1 while
`bin < binCount - 1` and 0 afterwards, the loop continues while the shifted
`elapsed` is nonzero, and `bin` is a uint8_t that wraps modulo 256.
`none` means the fuel ran out before the loop exited. -/
def classifyAux (binCount : Nat) : Nat → Nat → Nat → Option Nat
  | 0, _, _ => none
  | fuel + 1, elapsed, bin =>
    let shift : Nat := if bin < binCount - 1 then 1 else 0
    let e2 := elapsed >>> shift
    if e2 = 0 then some bin
    else classifyAux binCount fuel e2 ((bin + 1) % 256)

/-- Fuel covering every terminating run of the classification loop on uint32
inputs: whenever the loop can terminate at all, `elapsed < 2 ^ 32` loses one
bit at least once per 256 iterations, so 33 * 256 iterations suffice. -/
def FUEL : Nat := 10000

/-- The tail of `BinStatistics::record` after the total-count update: return
early when there are no bins, classify `elapsed / unitDivider` starting at
bin index 0, and increment the selected bin unless that uint16 counter is
saturated.  `none` means the classification loop did not terminate. -/
def BinStatistics.recordBin (h2 : BinStatistics) (elapsed : Nat) : Option BinStatistics :=
  if h2.binCount = 0 then some h2
  else
    match classifyAux h2.binCount FUEL (elapsed / h2.unitDivider) 0 with
    | none => none
    | some bin =>
      if h2.bins.getD bin 0 < U16MAX then
        some { h2 with bins := h2.bins.set bin (h2.bins.getD bin 0 + 1) }
      else
        some h2

/-- `BinStatistics::record(elapsed)`: reset everything when the uint32 total
count is saturated, increment the total count (uint32 arithmetic), then run
the bin-classification tail. -/
def BinStatistics.record (h : BinStatistics) (elapsed : Nat) : Option BinStatistics :=
  let h1 := if h.count = U32MAX then h.clear else h
  BinStatistics.recordBin { h1 with count := (h1.count + 1) % 2 ^ 32 } elapsed

/-- `Task::Type` of src/src/MycilaTaskManager.h. -/
inductive TaskType where
  | ONCE
  | FOREVER
deriving DecidableEq, Repr

/-- The scheduling state of a `Task` (current revision,
src/src/MycilaTaskManager.h): the enabled predicate `_enabled` modelled by
its value (`none` = no predicate installed), `_paused`, `_running`,
`_stats`, `_type`, `_intervalMs` and `_lastEnd` (both uint32).  `_name`,
`_fn`, `_onDone` and `_params` do not influence the scheduling state and are
omitted. -/
structure Task where
  en : Option Bool
  paused : Bool
  running : Bool
  stats : Option BinStatistics
  ttype : TaskType
  intervalMs : Nat
  lastEnd : Nat
deriving DecidableEq, Repr

/-- `Task::setType(type)`: a no-op when the type is unchanged; otherwise set
the type and start ONCE tasks paused. -/
def Task.setType (t : Task) (ty : TaskType) : Task :=
  if t.ttype = ty then t
  else { t with ttype := ty, paused := ty = TaskType.ONCE }

/-- The constructor `Task(name, type, fn)`: the member initializers
(`_enabled = nullptr`, `_paused = false`, `_running = false`,
`_stats = nullptr`, `_type = Type::FOREVER`, `_intervalMs = 0`,
`_lastEnd = 0`) followed by `setType(type)`. -/
def Task.create (ty : TaskType) : Task :=
  Task.setType
    { en := none, paused := false, running := false, stats := none,
      ttype := TaskType.FOREVER, intervalMs := 0, lastEnd := 0 } ty

/-- `Task::enabled()`: `!_enabled || _enabled()`. -/
def Task.enabledEval (t : Task) : Bool :=
  match t.en with
  | none => true
  | some b => b

/-- `Task::shouldRun()` at clock value `now`. -/
def Task.shouldRun (t : Task) (now : Nat) : Bool :=
  if t.paused || !t.enabledEval then false
  else t.lastEnd == 0 || t.intervalMs == 0 || decide (t.intervalMs ≤ sub32 now t.lastEnd)

/-- `Task::earlyRunRequested()`: `_lastEnd == 0`. -/
def Task.earlyRunRequested (t : Task) : Bool := t.lastEnd == 0

/-- `Task::requestEarlyRun()`: reset the last-end sentinel. -/
def Task.requestEarlyRun (t : Task) : Task := { t with lastEnd := 0 }

/-- `Task::pause()`. -/
def Task.pause (t : Task) : Task := { t with paused := true }

/-- `Task::resume(0)` (no delay). -/
def Task.resume (t : Task) : Task := { t with paused := false }

/-- `Task::_run(now)` with the clock stationary at `now` during the run: the
work function executes (no effect on the scheduler state), `_running` ends
false, `_lastEnd` is stamped from the clock, a ONCE task pauses itself,
`elapsed = _lastEnd - now` is recorded into the task's histogram when
profiling is enabled (the done-callback is external).  `none` means the
histogram's classification loop did not terminate. -/
def Task.runAt (t : Task) (now : Nat) : Option Task :=
  let t1 := { t with running := false, lastEnd := now % 2 ^ 32 }
  let t2 := if t1.ttype = TaskType.ONCE then { t1 with paused := true } else t1
  let elapsed := sub32 t2.lastEnd now
  match t2.stats with
  | none => some t2
  | some s => (s.record elapsed).map fun s2 => { t2 with stats := some s2 }

/-- `Task::tryRun()` at clock value `now`: run when not paused, enabled, and
the task never ran, has a zero interval, or the interval has elapsed. -/
def Task.tryRun (t : Task) (now : Nat) : Option (Bool × Task) :=
  if t.paused || !t.enabledEval then some (false, t)
  else if t.lastEnd == 0 || t.intervalMs == 0 then
    (t.runAt now).map fun t2 => (true, t2)
  else if decide (t.intervalMs ≤ sub32 now t.lastEnd) then
    (t.runAt now).map fun t2 => (true, t2)
  else
    some (false, t)

/-- `Task::enableProfiling(binCount, unitDivider)` of the current revision
(src/src/MycilaTaskManager.h): allocate a histogram only when none exists. -/
def Task.enableProfiling (t : Task) (binCount unitDivider : Nat) : Task :=
  match t.stats with
  | some _ => t
  | none => { t with stats := some (BinStatistics.create binCount unitDivider) }

/-- `Task::disableProfiling()` of the current revision: delete the
histogram. -/
def Task.disableProfiling (t : Task) : Task := { t with stats := none }

/-- `TaskManager` state (current revision): the ordered task list and the
manager's own optional histogram (`_name`, watchdog and async fields are
external). -/
structure TaskManager where
  tasks : List Task
  stats : Option BinStatistics
deriving DecidableEq, Repr

/-- The task iteration of `TaskManager::loop()` at (stationary) clock value
`now`: call `tryRun` on each task in registration order, counting the tasks
that ran. -/
def loopTasks (now : Nat) : List Task → Option (Nat × List Task)
  | [] => some (0, [])
  | t :: ts => do
    let r ← t.tryRun now
    let rest ← loopTasks now ts
    pure (if r.1 then rest.1 + 1 else rest.1, r.2 :: rest.2)

/-- `TaskManager::loop()`: iterate the tasks at clock value `now`, then — when
the manager has a histogram and at least one task ran — record the pass
duration `millis() - now` into it, reading the clock again (`now2`) at the
end of the pass.  Returns the number of executed tasks. -/
def TaskManager.loop (tm : TaskManager) (now now2 : Nat) : Option (Nat × TaskManager) := do
  let r ← loopTasks now tm.tasks
  match tm.stats with
  | some s =>
    if 0 < r.1 then do
      let s2 ← s.record (sub32 now2 now)
      pure (r.1, { tm with tasks := r.2, stats := some s2 })
    else
      pure (r.1, { tm with tasks := r.2 })
  | none => pure (r.1, { tm with tasks := r.2 })

/-- The scheduling pass as the spec words it (for claim C7): visit the task
collection in order, calling `tryRun` on each task exactly once; return the
count of tasks that actually ran; and record the wall-clock duration of the
pass into the manager's histogram if and only if that histogram is enabled
and at least one task ran. -/
def TaskManager.loopSpec (tm : TaskManager) (now now2 : Nat) : Option (Nat × TaskManager) := do
  let rs ← tm.tasks.mapM fun t => t.tryRun now
  let executed := rs.countP fun r => r.1
  let tasks2 := rs.map fun r => r.2
  match tm.stats with
  | some s =>
    if 0 < executed then do
      let s2 ← s.record (sub32 now2 now)
      pure (executed, { tm with tasks := tasks2, stats := some s2 })
    else
      pure (executed, { tm with tasks := tasks2 })
  | none => pure (executed, { tm with tasks := tasks2 })

/-- A fresh FOREVER task with the given interval: never run, not paused, no
enabled predicate, no histogram (claim C3's scenario tasks). -/
def freshTask (intervalMs : Nat) : Task :=
  { en := none, paused := false, running := false, stats := none,
    ttype := TaskType.FOREVER, intervalMs := intervalMs, lastEnd := 0 }

/-- Claim C3's TaskManager: three REPEATING tasks with intervals 0, 0, 1000,
no manager histogram. -/
def tm3 : TaskManager :=
  { tasks := [freshTask 0, freshTask 0, freshTask 1000], stats := none }

/-- The superseded revision's `TaskStatistics`
(src/src/MycilaTaskManager.cpp): bin counters (uint16), iteration count
(uint32), the time unit divider and the `_updated` flag. -/
structure TaskStatistics where
  nBins : Nat
  unit : Nat
  bins : List Nat
  iterations : Nat
  updated : Bool
deriving DecidableEq, Repr

/-- The superseded revision's constructor `TaskStatistics(nBins, unit)`:
allocate the bins and clear (`_updated` starts at its member initializer,
false). -/
def TaskStatistics.create (nBins unit : Nat) : TaskStatistics :=
  { nBins := nBins, unit := unit, bins := List.replicate nBins 0,
    iterations := 0, updated := false }

/-- The superseded revision's `Task::enableProfiling(nBins, unit)`
(src/src/MycilaTaskManager.cpp, returns bool): fail when a histogram already
exists, otherwise allocate one and succeed.  Modelled over the `_stats`
field it reads and writes. -/
def legacyEnableProfiling (stats : Option TaskStatistics) (nBins unit : Nat) :
    Bool × Option TaskStatistics :=
  match stats with
  | some s => (false, some s)
  | none => (true, some (TaskStatistics.create nBins unit))

/-- The superseded revision's `Task::disableProfiling()` (returns bool):
delete the histogram and succeed when one exists, otherwise fail. -/
def legacyDisableProfiling (stats : Option TaskStatistics) :
    Bool × Option TaskStatistics :=
  match stats with
  | some _ => (true, none)
  | none => (false, none)

/-! Theorems. -/

example : classifyAux 4 FUEL 0 0 = some 0 := by decide
example : classifyAux 4 FUEL 1 0 = some 0 := by decide
example : classifyAux 4 FUEL 3 0 = some 1 := by decide

set_option maxRecDepth 10000 in
/-- Claim C1 (code_bug): evaluating `record` at the spec's own scenario —
bucketCount 4, divisor 1, record(0), record(1), record(3), record(100).
The claim (and the bin-range comment at the top of MycilaBinStatistics.h)
expects buckets `[2, 0, 1, 1]`: bucket `min(3, floor(log2 100)) = 3` for the
last call.  The code instead increments bucket 0 for `elapsed = 100`,
because the loop's controlling expression parses as
`elapsed >>= (1 && bin < _binCount - 1)`, so the exit index is
`(bitlength(elapsed) - 1) mod (binCount - 1)`; the final state is
`[3, 1, 0, 0]` with total count 4. -/
theorem C1_record_bins_eval :
    ((BinStatistics.create 4 1).record 0 >>= (·.record 1) >>=
        (·.record 3) >>= (·.record 100)) =
      some { binCount := 4, unitDivider := 1, bins := [3, 1, 0, 0], count := 4 } := by
  decide

/-- Claim C2 (code_bug): for bucketCount 1 and `elapsed / divisor = 1` the
classification loop never exits — under every fuel bound, from every start
index, the loop state never reaches the exit condition, because with
bucketCount 1 the shift amount `1 && (bin < 0)` is always 0 and `elapsed`
stays 1 forever while the uint8_t `bin` wraps around.  The claim says the
loop terminates for every bucketCount >= 1. -/
theorem C2_classify_diverges : ∀ fuel bin, classifyAux 1 fuel 1 bin = none := by
  intro fuel
  induction fuel with
  | zero => intro bin; rfl
  | succ n ih =>
    intro bin
    simp only [classifyAux, Nat.sub_self, Nat.not_lt_zero, if_false,
      Nat.shiftRight_zero, Nat.one_ne_zero]
    exact ih _

/-- Helper for C9: started at a nonzero elapsed value, the classification
loop can only exit at an index where the shift amount was 1, i.e. strictly
below bucketCount - 1. -/
theorem classifyAux_exit_lt (N : Nat) :
    ∀ fuel e bin b, e ≠ 0 → classifyAux N fuel e bin = some b → b < N - 1 := by
  intro fuel
  induction fuel with
  | zero => intro e bin b _ h; exact absurd h (by simp [classifyAux])
  | succ n ih =>
    intro e bin b he h
    unfold classifyAux at h
    by_cases hb : bin < N - 1
    · simp only [hb, if_true] at h
      by_cases h2 : e >>> 1 = 0
      · simp only [h2, if_true, Option.some.injEq] at h
        omega
      · simp only [h2, if_false] at h
        exact ih _ _ _ h2 h
    · simp only [hb, if_false, Nat.shiftRight_zero] at h
      simp only [he, if_false] at h
      exact ih _ _ _ he h

/-- Claim C9: whenever the classification loop of `record` terminates
(starting, as `record` starts it, at bin index 0) on a histogram with
bucketCount N >= 1, the bucket index it returns is strictly less than N, so
the subsequent bucket increment stays inside the bucket array. -/
theorem C9_bin_in_range (N fuel e b : Nat) (hN : 1 ≤ N)
    (h : classifyAux N fuel e 0 = some b) : b < N := by
  cases fuel with
  | zero => exact absurd h (by simp [classifyAux])
  | succ n =>
    unfold classifyAux at h
    by_cases h2 : e >>> (if (0 : Nat) < N - 1 then 1 else 0) = 0
    · simp only [h2, if_true, Option.some.injEq] at h
      omega
    · simp only [h2, if_false] at h
      have := classifyAux_exit_lt N n _ _ _ h2 h
      omega

/-- Claim C9 witness: a concrete terminating classification, bucketCount 4,
elapsed 5, landing in bucket 2 < 4. -/
theorem C9_witness : classifyAux 4 64 5 0 = some 2 ∧ 2 < 4 :=
  ⟨by decide, C9_bin_in_range 4 64 5 2 (by decide) (by decide)⟩

/-- A completed `record` with the total count below UINT32_MAX is the
classification tail on the histogram with the count already incremented. -/
theorem record_of_lt (h : BinStatistics) (e : Nat) (hc : h.count < U32MAX) :
    h.record e = BinStatistics.recordBin { h with count := h.count + 1 } e := by
  have hne : h.count ≠ U32MAX := Nat.ne_of_lt hc
  have hm : (h.count + 1) % 2 ^ 32 = h.count + 1 :=
    Nat.mod_eq_of_lt (by unfold U32MAX at hc; omega)
  simp only [BinStatistics.record, if_neg hne, hm]

/-- The classification tail never changes the total count. -/
theorem recordBin_count (h2 : BinStatistics) (e : Nat) (h' : BinStatistics)
    (hr : h2.recordBin e = some h') : h'.count = h2.count := by
  unfold BinStatistics.recordBin at hr
  split at hr
  · rw [Option.some.injEq] at hr; subst hr; rfl
  · split at hr
    · exact absurd hr (by simp)
    · split at hr <;> (rw [Option.some.injEq] at hr; subst hr; rfl)

/-- When the classified bin counter is saturated, the classification tail
changes nothing. -/
theorem recordBin_saturated (h2 : BinStatistics) (e b : Nat)
    (hcl : classifyAux h2.binCount FUEL (e / h2.unitDivider) 0 = some b)
    (hsat : h2.bins.getD b 0 = U16MAX) :
    h2.recordBin e = some h2 := by
  unfold BinStatistics.recordBin
  split
  · rfl
  · rw [hcl]
    change (if h2.bins.getD b 0 < U16MAX then
        some { h2 with bins := h2.bins.set b (h2.bins.getD b 0 + 1) } else some h2) = some h2
    rw [if_neg (by rw [hsat]; exact lt_irrefl _)]

/-- Claim C6: the total count counts every `record` call that completes.
(a) When the uint32 total count is not saturated, a completed `record`
increments it by exactly one; (b) this holds even when the addressed bucket
counter is saturated at UINT16_MAX, in which case the buckets are left
entirely unchanged; (c) a `record` call made while the total count holds
UINT32_MAX behaves exactly as `record` on the cleared histogram, so it
restarts the total count at one. -/
theorem C6_count_saturation :
    (∀ (h : BinStatistics) (e : Nat) (h' : BinStatistics), h.count < U32MAX →
        h.record e = some h' → h'.count = h.count + 1) ∧
    (∀ (h : BinStatistics) (e : Nat) (h' : BinStatistics) (b : Nat), h.count < U32MAX →
        classifyAux h.binCount FUEL (e / h.unitDivider) 0 = some b →
        h.bins.getD b 0 = U16MAX →
        h.record e = some h' → h'.bins = h.bins ∧ h'.count = h.count + 1) ∧
    (∀ (h : BinStatistics) (e : Nat), h.count = U32MAX →
        h.record e = h.clear.record e ∧
        ∀ h' : BinStatistics, h.record e = some h' → h'.count = 1) := by
  refine ⟨?_, ?_, ?_⟩
  · intro h e h' hc hrec
    rw [record_of_lt h e hc] at hrec
    rw [recordBin_count _ _ _ hrec]
  · intro h e h' b hc hcl hsat hrec
    rw [record_of_lt h e hc] at hrec
    have hb := recordBin_saturated { h with count := h.count + 1 } e b hcl hsat
    rw [hb, Option.some.injEq] at hrec
    subst hrec
    exact ⟨rfl, rfl⟩
  · intro h e hc
    have h2 : h.clear.count ≠ U32MAX := by simp [BinStatistics.clear, U32MAX]
    constructor
    · simp only [BinStatistics.record, if_pos hc, if_neg h2]
    · intro h' hrec
      simp only [BinStatistics.record, if_pos hc] at hrec
      exact (recordBin_count _ _ _ hrec).trans rfl

/-- Unsigned wraparound subtraction of a value from itself is 0. -/
theorem sub32_self (t : Nat) : sub32 t t = 0 := by
  unfold sub32
  have hp : (2 : Nat) ^ 32 = 4294967296 := by norm_num
  rw [hp]
  omega

/-- A never-run fresh task runs at any clock value and gets stamped with it. -/
theorem freshTask_tryRun (i now : Nat) :
    (freshTask i).tryRun now
      = some (true, { freshTask i with lastEnd := now % 2 ^ 32 }) := rfl

/-- An interval-0 task that has already run still runs on every pass. -/
theorem ranTask_zero_tryRun (u now : Nat) :
    (Task.tryRun { freshTask 0 with lastEnd := u } now)
      = some (true, { freshTask 0 with lastEnd := now % 2 ^ 32 }) := by
  simp [Task.tryRun, Task.runAt, freshTask, Task.enabledEval]

/-- An interval-1000 task stamped at the current clock value does not run
again while the clock has not advanced. -/
theorem ranTask_interval_tryRun (t : Nat) (ht : t ≠ 0) :
    (Task.tryRun { freshTask 1000 with lastEnd := t } t)
      = some (false, { freshTask 1000 with lastEnd := t }) := by
  simp [Task.tryRun, freshTask, Task.enabledEval, ht, sub32_self]

/-- Claim C3 (counterexample): with the clock stationary at exactly t = 0,
the first `loop()` over the three REPEATING tasks (intervals 0, 0, 1000)
runs all three and returns 3 — but the second immediate `loop()` also
returns 3, not 2 as the claim says: each run stamps
`_lastEnd = millis() = 0`, which is the never-run sentinel, so the
interval-1000 task is treated as never run again. -/
theorem C3_second_loop_at_zero :
    ((tm3.loop 0 0).bind fun p => p.2.loop 0 0).map Prod.fst = some 3 ∧
      ((tm3.loop 0 0).bind fun p => p.2.loop 0 0).map Prod.fst ≠ some 2 := by
  constructor
  · decide
  · decide

/-- Claim C3 as amended: with the clock stationary at any representable
t > 0 instead of t = 0, the first `loop()` runs all three tasks (never-run
sentinel) and returns 3, and the second immediate `loop()` at the same
clock value runs only the two interval-0 tasks and returns 2. -/
theorem C3_amended_loop_counts (t : Nat) (h1 : 0 < t) (h2 : t < 2 ^ 32) :
    ∃ tm1, tm3.loop t t = some (3, tm1) ∧ (tm1.loop t t).map Prod.fst = some 2 := by
  have ht : t ≠ 0 := Nat.pos_iff_ne_zero.mp h1
  have hm : t % 2 ^ 32 = t := Nat.mod_eq_of_lt h2
  refine ⟨{ tasks := [{ freshTask 0 with lastEnd := t }, { freshTask 0 with lastEnd := t },
      { freshTask 1000 with lastEnd := t }], stats := none }, ?_, ?_⟩
  · simp [TaskManager.loop, tm3, loopTasks, freshTask_tryRun, hm]
    omega
  · simp [TaskManager.loop, loopTasks, ranTask_zero_tryRun, hm,
      ranTask_interval_tryRun t ht]

/-- Claim C3 witness: the amended scenario evaluated at the concrete
stationary clock value t = 5. -/
theorem C3_amended_witness :
    ∃ tm1, tm3.loop 5 5 = some (3, tm1) ∧ (tm1.loop 5 5).map Prod.fst = some 2 :=
  C3_amended_loop_counts 5 (by decide) (by decide)

/-- Claim C4: the `shouldRun()` decision list — false when paused; false
when an installed enabled-predicate evaluates false; true when the task
never ran (last-end sentinel 0), whatever its interval; otherwise true
exactly when the interval is 0 or the elapsed time since the last
completion reaches the interval; and an interval-0 enabled, unpaused task
is due on every check.  A never-run task also reports
`earlyRunRequested()`. -/
theorem C4_shouldRun_spec (t : Task) (now : Nat) :
    (t.paused = true → t.shouldRun now = false) ∧
    (t.en = some false → t.shouldRun now = false) ∧
    (t.paused = false → t.enabledEval = true → t.lastEnd = 0 →
        t.shouldRun now = true ∧ t.earlyRunRequested = true) ∧
    (t.paused = false → t.enabledEval = true → t.lastEnd ≠ 0 →
        (t.shouldRun now = true ↔
          t.intervalMs = 0 ∨ t.intervalMs ≤ sub32 now t.lastEnd)) ∧
    (t.paused = false → t.enabledEval = true → t.intervalMs = 0 →
        t.shouldRun now = true) := by
  refine ⟨?_, ?_, ?_, ?_, ?_⟩
  · intro hp; simp [Task.shouldRun, hp]
  · intro he; simp [Task.shouldRun, Task.enabledEval, he]
  · intro hp hen hl
    exact ⟨by simp [Task.shouldRun, hp, hen, hl], by simp [Task.earlyRunRequested, hl]⟩
  · intro hp hen hl
    simp [Task.shouldRun, hp, hen, hl]
  · intro hp hen hi
    simp [Task.shouldRun, hp, hen, hi]

/-- After `_run` on a ONCE task, the task is paused. -/
theorem runAt_once_paused (t : Task) (now : Nat) (t2 : Task)
    (hty : t.ttype = TaskType.ONCE) (h : t.runAt now = some t2) :
    t2.paused = true := by
  simp only [Task.runAt, hty, if_true] at h
  cases hs : t.stats with
  | none =>
    simp only [hs, Option.some.injEq] at h
    subst h; rfl
  | some s =>
    simp only [hs, Option.map_eq_some'] at h
    obtain ⟨s2, _, h⟩ := h
    subst h; rfl

/-- Claim C5: a task whose type is set to ONCE at construction starts
paused; a successful `tryRun` of a ONCE task leaves it paused again; and a
paused task's `tryRun` returns false and changes nothing, so the work
function cannot run again until an explicit `resume()` (which clears the
paused flag). -/
theorem C5_once_semantics :
    (Task.create TaskType.ONCE).paused = true ∧
    (∀ (t : Task) (now : Nat) (t2 : Task), t.ttype = TaskType.ONCE →
        t.tryRun now = some (true, t2) → t2.paused = true) ∧
    (∀ (t : Task) (now : Nat), t.paused = true → t.tryRun now = some (false, t)) ∧
    (∀ t : Task, (t.resume).paused = false) := by
  refine ⟨rfl, ?_, ?_, fun t => rfl⟩
  · intro t now t2 hty htr
    unfold Task.tryRun at htr
    split at htr
    · simp at htr
    · split at htr
      · simp only [Option.map_eq_some'] at htr
        obtain ⟨t3, hr, he⟩ := htr
        rw [Prod.mk.injEq] at he
        exact he.2 ▸ runAt_once_paused t now t3 hty hr
      · split at htr
        · simp only [Option.map_eq_some'] at htr
          obtain ⟨t3, hr, he⟩ := htr
          rw [Prod.mk.injEq] at he
          exact he.2 ▸ runAt_once_paused t now t3 hty hr
        · simp at htr
  · intro t now hp
    simp [Task.tryRun, hp]

/-- The task iteration of `loop()` is `tryRun` mapped over the task list in
order, paired with the count of successful runs. -/
theorem loopTasks_eq_mapM (now : Nat) (ts : List Task) :
    loopTasks now ts = (ts.mapM fun t : Task => t.tryRun now).map
      fun rs => (rs.countP fun r => r.1, rs.map fun r => r.2) := by
  induction ts with
  | nil => rfl
  | cons t ts ih =>
    simp only [loopTasks, List.mapM_cons, ih]
    cases t.tryRun now with
    | none => rfl
    | some r =>
      cases ts.mapM (fun t : Task => t.tryRun now) with
      | none => rfl
      | some rs =>
        simp only [Option.map_some', Option.bind_some, Option.some_bind,
          List.countP_cons, List.map_cons, pure]
        cases hr : r.1 <;> simp [hr]

/-- Claim C7: `TaskManager::loop()` coincides with the spec's description of
the scheduling pass: it visits the tasks in registration order, calls
`tryRun` on each exactly once, returns the number of tasks that ran, and
records the pass duration into the manager's histogram if and only if the
histogram is enabled and at least one task ran. -/
theorem C7_loop_refines_spec (tm : TaskManager) (now now2 : Nat) :
    tm.loop now now2 = tm.loopSpec now now2 := by
  unfold TaskManager.loop TaskManager.loopSpec
  rw [loopTasks_eq_mapM]
  cases tm.tasks.mapM (fun t : Task => t.tryRun now) with
  | none => rfl
  | some rs => rfl

/-- Claim C8: the profiling toggle is idempotent in both revisions.  In the
superseded revision (the bool-returning `Task::enableProfiling` /
`Task::disableProfiling` of MycilaTaskManager.cpp), enabling when a
histogram already exists returns false and keeps that histogram — recorded
state included — and disabling when none exists returns false and changes
nothing.  In the current revision the same calls are state no-ops.  All
four are total functions (no crash). -/
theorem C8_profiling_idempotent :
    (∀ (s : TaskStatistics) (nBins u : Nat),
        legacyEnableProfiling (some s) nBins u = (false, some s)) ∧
    (legacyDisableProfiling none = (false, none)) ∧
    (∀ (t : Task) (b u : Nat) (s : BinStatistics), t.stats = some s →
        t.enableProfiling b u = t) ∧
    (∀ t : Task, t.stats = none → t.disableProfiling = t) := by
  refine ⟨fun s n u => rfl, rfl, ?_, ?_⟩
  · intro t b u s hs
    unfold Task.enableProfiling
    rw [hs]
  · intro t hn
    unfold Task.disableProfiling
    rw [← hn]

/-- Claim C10: `setType` is a complete no-op when the new type equals the
current one — in particular a resumed ONCE task is not re-paused by
`setType(ONCE)` — and when the type differs it sets the type, sets the
paused flag exactly when the new type is ONCE, and leaves every other field
unchanged. -/
theorem C10_setType_frame (t : Task) (ty : TaskType) :
    (t.setType t.ttype = t) ∧
    (ty ≠ t.ttype →
      (t.setType ty).ttype = ty ∧
      ((t.setType ty).paused = true ↔ ty = TaskType.ONCE) ∧
      (t.setType ty).en = t.en ∧ (t.setType ty).running = t.running ∧
      (t.setType ty).stats = t.stats ∧ (t.setType ty).intervalMs = t.intervalMs ∧
      (t.setType ty).lastEnd = t.lastEnd) ∧
    (t.ttype = TaskType.ONCE → t.paused = false →
      (t.setType TaskType.ONCE).paused = false) := by
  refine ⟨?_, ?_, ?_⟩
  · unfold Task.setType
    rw [if_pos rfl]
  · intro hne
    unfold Task.setType
    rw [if_neg fun hh => hne hh.symm]
    refine ⟨rfl, ?_, rfl, rfl, rfl, rfl, rfl⟩
    simp
  · intro hty hp
    unfold Task.setType
    rw [if_pos hty]
    exact hp

end Mycila
